import Mathlib

/-!
Shallow embedding of the CCTP bridge transfer engine
(packages/cctp-bridge/src/orchestrator/BridgeOrchestrator.ts, its type and
storage modules, and the approve boundary of packages/cctp-bridge/src/cctp).

The orchestrator is modelled as a pure state-transition system: the mutable
instance fields become an explicit `OrchState`, asynchronous adapter calls
become oracle functions returning `Except String`, JS exceptions become the
`Except.error` branch carrying the message extracted by getErrorMessage, and
the observable side effects (listener notification rounds, storage writes and
removals, adapter invocations) are recorded in an event trace.
-/

namespace CctpBridge

/-- BridgeStep enum from the orchestrator types module. -/
inductive BridgeStep where
  | IDLE
  | APPROVED
  | BURNED
  | ATTESTED
  | COMPLETED
deriving DecidableEq, Repr

/-- BridgeMode: "standard" or "smart-account". -/
inductive BridgeMode where
  | standard
  | smartAccount
deriving DecidableEq, Repr

/-- Attestation payload from Circle's API: message plus attestation bytes. -/
structure AttestationData where
  message : String
  attestation : String
deriving DecidableEq, Repr

/-- BridgeState: the persisted session record (orchestrator types module).
Optional TS fields are `Option`; `usePaymaster` is optional in TS, hence
`Option Bool` here (handlers apply the `?? true` default). -/
structure BridgeState where
  step : BridgeStep
  mode : BridgeMode
  isLoading : Bool
  error : Option String
  sessionId : String
  amount : String
  destinationAddress : String
  approvalTxHash : Option String
  burnTxHash : Option String
  userOpHash : Option String
  userOpReceiptTxHash : Option String
  usePaymaster : Option Bool
  attestation : Option AttestationData
  mintTxHash : Option String
  createdAt : Nat
  updatedAt : Nat
deriving DecidableEq, Repr

/-- A partial-state object passed to updateState: `none` models an absent key
of the TS object literal, `some v` a present key with value `v`.  Fields the
orchestrator never patches (mode, sessionId, amount, destinationAddress,
usePaymaster, createdAt) have no slot, exactly as no call site mentions them. -/
structure StatePatch where
  step : Option BridgeStep := none
  isLoading : Option Bool := none
  error : Option (Option String) := none
  approvalTxHash : Option String := none
  burnTxHash : Option String := none
  userOpHash : Option String := none
  userOpReceiptTxHash : Option String := none
  attestation : Option AttestationData := none
  mintTxHash : Option String := none

/-- The merge `{ ...this.state, ...partial, updatedAt: Date.now() }` performed
by updateState; `now` stands for the Date.now() sample. -/
def applyPatch (s : BridgeState) (p : StatePatch) (now : Nat) : BridgeState :=
  { s with
    step := p.step.getD s.step
    isLoading := p.isLoading.getD s.isLoading
    error := p.error.getD s.error
    approvalTxHash := (p.approvalTxHash.map some).getD s.approvalTxHash
    burnTxHash := (p.burnTxHash.map some).getD s.burnTxHash
    userOpHash := (p.userOpHash.map some).getD s.userOpHash
    userOpReceiptTxHash := (p.userOpReceiptTxHash.map some).getD s.userOpReceiptTxHash
    attestation := (p.attestation.map some).getD s.attestation
    mintTxHash := (p.mintTxHash.map some).getD s.mintTxHash
    updatedAt := now }

/-- Backing map of MemoryStorageRepository (a JS `Map` keyed by sessionId),
modelled as an insertion-ordered association list without duplicate keys. -/
abbrev SessionStore := List (String × BridgeState)

/-- `Map.set`: replace in place when the key exists, append otherwise. -/
def storeSave (st : SessionStore) (id : String) (s : BridgeState) : SessionStore :=
  if st.any (fun p => p.1 = id) then
    st.map (fun p => if p.1 = id then (id, s) else p)
  else
    st ++ [(id, s)]

/-- `load`: `Map.get` with the `?? null` default. -/
def storeLoad (st : SessionStore) (id : String) : Option BridgeState :=
  (st.find? (fun p => p.1 = id)).map (fun p => p.2)

/-- `remove`: `Map.delete`. -/
def storeRemove (st : SessionStore) (id : String) : SessionStore :=
  st.filter (fun p => p.1 ≠ id)

/-- `listSessions`: `Array.from(store.keys())`. -/
def listSessions (st : SessionStore) : List String :=
  st.map (fun p => p.1)

/-- The CctpBridge adapter operations that the orchestrator's handlers call. -/
inductive AdapterOp where
  | approveUSDC
  | burnUSDC
  | retrieveAttestation
  | mintUSDC
  | approveAndBurnSA
  | waitForUserOperation
  | mintViaRelayer
deriving DecidableEq, Repr

/-- Observable effects of the orchestrator, in program order: a listener
notification round over a state snapshot, a storage save, a storage remove,
and an adapter invocation. -/
inductive Event where
  | notified (s : BridgeState)
  | saved (id : String) (s : BridgeState)
  | removed (id : String)
  | call (op : AdapterOp)
deriving DecidableEq, Repr

abbrev Trace := List Event

/-- The orchestrator instance: its `state` field, the storage repository's
contents, and a logical clock standing for Date.now() at the next mutation. -/
structure OrchState where
  state : BridgeState
  store : SessionStore
  clock : Nat
deriving DecidableEq, Repr

/-- updateState: merge the partial state, notify listeners, then issue the
storage save (the fire-and-forget save of a `Map`-backed repository lands
before any later operation, so it is sequenced here). -/
def updateState (p : StatePatch) (o : OrchState) : OrchState × Trace :=
  let s := applyPatch o.state p o.clock
  ({ state := s, store := storeSave o.store s.sessionId s, clock := o.clock + 1 },
   [Event.notified s, Event.saved s.sessionId s])

/-- setLoading: `{ isLoading, error: isLoading ? null : this.state.error }`. -/
def setLoading (b : Bool) (o : OrchState) : OrchState × Trace :=
  updateState { isLoading := some b, error := some (if b then none else o.state.error) } o

/-- setError: `{ error, isLoading: false }`. -/
def setError (m : String) (o : OrchState) : OrchState × Trace :=
  updateState { error := some (some m), isLoading := some false } o

/-- Result union of CctpBridge.approveUSDC: a newly submitted approval with
its hash, or the already-approved short-circuit with a null hash. -/
inductive ApproveResult where
  | success (transactionHash : String)
  | alreadyApproved
deriving DecidableEq, Repr

/-- Result union of CctpBridge.mintUSDCViaRelayer. -/
inductive RelayerResult where
  | ok (transactionHash : String)
  | fail (error : String) (code : String)
deriving DecidableEq, Repr

/-- Oracle for the CctpBridge chain adapter: each operation either returns a
value or throws (`Except.error` carries the thrown message). -/
structure Adapter where
  approveUSDC : String → Except String ApproveResult
  burnUSDC : String → String → Except String String
  retrieveAttestation : String → Except String AttestationData
  mintUSDC : AttestationData → Except String String
  approveAndBurnSA : String → String → Bool → Except String String
  waitForUserOperation : String → Bool → Except String String
  mintUSDCViaRelayer : AttestationData → Except String RelayerResult

/-- A handler run: thrown-or-returned, the orchestrator state after the
mutations performed up to that point, and the emitted events. -/
abbrev HandlerOut := Except String Unit × OrchState × Trace

/-- stepApprove: setLoading(true); approveUSDC; on success merge step=APPROVED
(plus the approval hash only when the result carries one) and clear loading. -/
def stepApprove (ad : Adapter) (o : OrchState) : HandlerOut :=
  let r1 := setLoading true o
  match ad.approveUSDC r1.1.state.amount with
  | Except.error m => (Except.error m, r1.1, r1.2 ++ [Event.call AdapterOp.approveUSDC])
  | Except.ok res =>
    let p : StatePatch :=
      { step := some BridgeStep.APPROVED
        isLoading := some false
        approvalTxHash := match res with
          | ApproveResult.success h => some h
          | ApproveResult.alreadyApproved => none }
    let r2 := updateState p r1.1
    (Except.ok (), r2.1, r1.2 ++ Event.call AdapterOp.approveUSDC :: r2.2)

/-- stepBurn: setLoading(true); burnUSDC; merge step=BURNED with the hash. -/
def stepBurn (ad : Adapter) (o : OrchState) : HandlerOut :=
  let r1 := setLoading true o
  match ad.burnUSDC r1.1.state.amount r1.1.state.destinationAddress with
  | Except.error m => (Except.error m, r1.1, r1.2 ++ [Event.call AdapterOp.burnUSDC])
  | Except.ok h =>
    let r2 := updateState
      { step := some BridgeStep.BURNED, burnTxHash := some h, isLoading := some false } r1.1
    (Except.ok (), r2.1, r1.2 ++ Event.call AdapterOp.burnUSDC :: r2.2)

/-- stepAttest: setLoading(true); pick the receipt hash (smart-account) or the
burn hash (standard); throw when absent; retrieveAttestation; merge
step=ATTESTED with the attestation. -/
def stepAttest (ad : Adapter) (o : OrchState) : HandlerOut :=
  let r1 := setLoading true o
  let txHash :=
    if r1.1.state.mode = BridgeMode.smartAccount then r1.1.state.userOpReceiptTxHash
    else r1.1.state.burnTxHash
  match txHash with
  | none => (Except.error "No burn transaction hash available for attestation", r1.1, r1.2)
  | some tx =>
    match ad.retrieveAttestation tx with
    | Except.error m =>
      (Except.error m, r1.1, r1.2 ++ [Event.call AdapterOp.retrieveAttestation])
    | Except.ok a =>
      let r2 := updateState
        { step := some BridgeStep.ATTESTED, attestation := some a, isLoading := some false } r1.1
      (Except.ok (), r2.1, r1.2 ++ Event.call AdapterOp.retrieveAttestation :: r2.2)

/-- stepMint: guard on a present attestation (thrown before setLoading);
setLoading(true); mintUSDC; merge step=COMPLETED with the mint hash. -/
def stepMint (ad : Adapter) (o : OrchState) : HandlerOut :=
  match o.state.attestation with
  | none => (Except.error "No attestation available for minting", o, [])
  | some a =>
    let r1 := setLoading true o
    match ad.mintUSDC a with
    | Except.error m => (Except.error m, r1.1, r1.2 ++ [Event.call AdapterOp.mintUSDC])
    | Except.ok h =>
      let r2 := updateState
        { step := some BridgeStep.COMPLETED, mintTxHash := some h, isLoading := some false } r1.1
      (Except.ok (), r2.1, r1.2 ++ Event.call AdapterOp.mintUSDC :: r2.2)

/-- stepApproveAndBurn (smart account): setLoading(true); submit the bundled
user operation; persist the userOpHash alone; await the receipt; then merge
step=BURNED with the receipt transaction hash. -/
def stepApproveAndBurn (ad : Adapter) (o : OrchState) : HandlerOut :=
  let r1 := setLoading true o
  let up := r1.1.state.usePaymaster.getD true
  match ad.approveAndBurnSA r1.1.state.amount r1.1.state.destinationAddress up with
  | Except.error m => (Except.error m, r1.1, r1.2 ++ [Event.call AdapterOp.approveAndBurnSA])
  | Except.ok opHash =>
    let r2 := updateState { userOpHash := some opHash } r1.1
    match ad.waitForUserOperation opHash up with
    | Except.error m =>
      (Except.error m, r2.1,
       r1.2 ++ Event.call AdapterOp.approveAndBurnSA :: r2.2
            ++ [Event.call AdapterOp.waitForUserOperation])
    | Except.ok receiptTx =>
      let r3 := updateState
        { step := some BridgeStep.BURNED, userOpReceiptTxHash := some receiptTx,
          isLoading := some false } r2.1
      (Except.ok (), r3.1,
       r1.2 ++ Event.call AdapterOp.approveAndBurnSA :: r2.2
            ++ Event.call AdapterOp.waitForUserOperation :: r3.2)

/-- stepMintViaRelayer: guard on a present attestation; setLoading(true);
mintUSDCViaRelayer; a `success: false` reply is thrown
(`result.error || "Relayer returned an error"`); merge step=COMPLETED. -/
def stepMintViaRelayer (ad : Adapter) (o : OrchState) : HandlerOut :=
  match o.state.attestation with
  | none => (Except.error "No attestation available for minting", o, [])
  | some a =>
    let r1 := setLoading true o
    match ad.mintUSDCViaRelayer a with
    | Except.error m => (Except.error m, r1.1, r1.2 ++ [Event.call AdapterOp.mintViaRelayer])
    | Except.ok (RelayerResult.fail e _) =>
      (Except.error (if e = "" then "Relayer returned an error" else e), r1.1,
       r1.2 ++ [Event.call AdapterOp.mintViaRelayer])
    | Except.ok (RelayerResult.ok h) =>
      let r2 := updateState
        { step := some BridgeStep.COMPLETED, mintTxHash := some h, isLoading := some false } r1.1
      (Except.ok (), r2.1, r1.2 ++ Event.call AdapterOp.mintViaRelayer :: r2.2)

/-- The handlers appearing as values of getFlowMap. -/
inductive HandlerTag where
  | approve
  | burn
  | attest
  | mint
  | approveAndBurn
  | mintViaRelayer
deriving DecidableEq, Repr

/-- getFlowMap: the per-mode step-to-handler dictionary. -/
def flowMap : BridgeMode → BridgeStep → Option HandlerTag
  | BridgeMode.standard, BridgeStep.IDLE => some HandlerTag.approve
  | BridgeMode.standard, BridgeStep.APPROVED => some HandlerTag.burn
  | BridgeMode.standard, BridgeStep.BURNED => some HandlerTag.attest
  | BridgeMode.standard, BridgeStep.ATTESTED => some HandlerTag.mint
  | BridgeMode.smartAccount, BridgeStep.IDLE => some HandlerTag.approveAndBurn
  | BridgeMode.smartAccount, BridgeStep.BURNED => some HandlerTag.attest
  | BridgeMode.smartAccount, BridgeStep.ATTESTED => some HandlerTag.mintViaRelayer
  | _, _ => none

/-- `Object.keys(flow).length` for each mode's dictionary. -/
def flowSize : BridgeMode → Nat
  | BridgeMode.standard => 4
  | BridgeMode.smartAccount => 3

/-- Dispatch a flow-map entry to its handler. -/
def runHandler (tag : HandlerTag) (ad : Adapter) (o : OrchState) : HandlerOut :=
  match tag with
  | HandlerTag.approve => stepApprove ad o
  | HandlerTag.burn => stepBurn ad o
  | HandlerTag.attest => stepAttest ad o
  | HandlerTag.mint => stepMint ad o
  | HandlerTag.approveAndBurn => stepApproveAndBurn ad o
  | HandlerTag.mintViaRelayer => stepMintViaRelayer ad o

/-- The bounded loop of executeFlow.  A thrown handler aborts the loop; the
error is tagged with the handler and the step at which it ran.  A missing
flow-map entry, or a handler that did not advance the step, ends the loop. -/
def flowLoop (ad : Adapter) (mode : BridgeMode) :
    Nat → OrchState → Except (HandlerTag × BridgeStep × String) Unit × OrchState × Trace
  | 0, o => (Except.ok (), o, [])
  | Nat.succ fuel, o =>
    match flowMap mode o.state.step with
    | none => (Except.ok (), o, [])
    | some tag =>
      let r := runHandler tag ad o
      match r.1 with
      | Except.error m => (Except.error (tag, o.state.step, m), r.2.1, r.2.2)
      | Except.ok _ =>
        if r.2.1.state.step = o.state.step then (Except.ok (), r.2.1, r.2.2)
        else
          let r2 := flowLoop ad mode fuel r.2.1
          (r2.1, r2.2.1, r.2.2 ++ r2.2.2)

/-- cleanup: remove the completed session from storage. -/
def cleanup (o : OrchState) : OrchState × Trace :=
  ({ o with store := storeRemove o.store o.state.sessionId },
   [Event.removed o.state.sessionId])

/-- executeFlow: walk the step map for at most `keys + 1` transitions, then
run cleanup when the step reached COMPLETED (a thrown handler skips this,
its exception propagating to execute's catch). -/
def executeFlow (ad : Adapter) (o : OrchState) :
    Except (HandlerTag × BridgeStep × String) Unit × OrchState × Trace :=
  let r := flowLoop ad o.state.mode (flowSize o.state.mode + 1) o
  match r.1 with
  | Except.error e => (Except.error e, r.2.1, r.2.2)
  | Except.ok _ =>
    if r.2.1.state.step = BridgeStep.COMPLETED then
      let c := cleanup r.2.1
      (Except.ok (), c.1, r.2.2 ++ c.2)
    else (Except.ok (), r.2.1, r.2.2)

/-- execute: return immediately while isLoading; otherwise clear the previous
error, run the flow, and catch any handler failure with setError.  The third
component reports the caught failure (handler, step it ran at, message);
`none` means no exception was raised. -/
def execute (ad : Adapter) (o : OrchState) :
    OrchState × Trace × Option (HandlerTag × BridgeStep × String) :=
  if o.state.isLoading then (o, [], none)
  else
    let u := updateState { error := some none } o
    let f := executeFlow ad u.1
    match f.1 with
    | Except.ok _ => (f.2.1, u.2 ++ f.2.2, none)
    | Except.error e =>
      let r := setError e.2.2 f.2.1
      (r.1, u.2 ++ f.2.2 ++ r.2, some e)

/-- cancel: remove the record from storage, then updateState to IDLE with the
cancellation marker (updateState itself notifies and issues a save). -/
def cancel (o : OrchState) : OrchState × Trace :=
  let o1 : OrchState := { o with store := storeRemove o.store o.state.sessionId }
  let r := updateState
    { step := some BridgeStep.IDLE, isLoading := some false,
      error := some (some "Session cancelled") } o1
  (r.1, Event.removed o.state.sessionId :: r.2)

/-- The initial record built by BridgeOrchestrator.create. -/
def initialState (mode : BridgeMode) (amount destinationAddress : String)
    (usePaymaster : Option Bool) (sessionId : String) (now : Nat) : BridgeState :=
  { step := BridgeStep.IDLE
    mode := mode
    isLoading := false
    error := none
    sessionId := sessionId
    amount := amount
    destinationAddress := destinationAddress
    approvalTxHash := none
    burnTxHash := none
    userOpHash := none
    userOpReceiptTxHash := none
    usePaymaster := some (usePaymaster.getD true)
    attestation := none
    mintTxHash := none
    createdAt := now
    updatedAt := now }

/-- create: build the initial record and persist it (into a fresh store). -/
def createOrch (mode : BridgeMode) (amount destinationAddress : String)
    (usePaymaster : Option Bool) (sessionId : String) (now : Nat) : OrchState :=
  let s := initialState mode amount destinationAddress usePaymaster sessionId now
  { state := s, store := storeSave [] sessionId s, clock := now + 1 }

/-- resume: the state an orchestrator adopts for a loaded record — the stored
record with error and isLoading unconditionally cleared. -/
def resumedState (s : BridgeState) : BridgeState :=
  { s with error := none, isLoading := false }

/-- `listeners.indexOf(x)` followed by `splice(index, 1)`: remove the first
occurrence of `x`, leave the list untouched when absent. -/
def removeFirst : List Nat → Nat → List Nat
  | [], _ => []
  | x :: xs, t => if x = t then xs else x :: removeFirst xs t

/-- One notification round of `notify()`: a `for...of` over the LIVE
`this.listeners` array (the JS array iterator re-checks the current length at
each step), where the invoked listener may synchronously unsubscribe a
listener (`react x = some t` unsubscribes listener `t`, `none` does nothing).
Returns the invocation sequence and the final listener list.  Listeners are
identified by their position-independent ids; the fuel argument is an upper
bound on the number of iterations (the list never grows mid-round). -/
def notifyFrom (react : Nat → Option Nat) :
    Nat → List Nat → Nat → List Nat × List Nat
  | 0, ls, _ => ([], ls)
  | Nat.succ fuel, ls, i =>
    if h : i < ls.length then
      let x := ls.get ⟨i, h⟩
      let ls1 := match react x with
        | some t => removeFirst ls t
        | none => ls
      let r := notifyFrom react fuel ls1 (i + 1)
      (x :: r.1, r.2)
    else ([], ls)

/-- A full notification round starting at index 0. -/
def notifyLive (react : Nat → Option Nat) (ls : List Nat) : List Nat × List Nat :=
  notifyFrom react ls.length ls 0

/-- Units parsing at 6 decimals, modelled from viem's parseUnits as used by
CctpBridge.approveUSDC, restricted to non-negative decimal strings with at
most six fractional digits (`none` on anything else). -/
def parseUnits6 (s : String) : Option Nat :=
  let digitsVal : List Char → Option Nat := fun cs =>
    if cs ≠ [] ∧ cs.all Char.isDigit then
      some (cs.foldl (fun acc c => acc * 10 + (c.toNat - 48)) 0)
    else none
  match s.toList.splitOn '.' with
  | [intPart] => (digitsVal intPart).map (fun n => n * 1000000)
  | [intPart, fracPart] =>
    if fracPart.length ≤ 6 then
      match digitsVal intPart, digitsVal fracPart with
      | some n, some f => some (n * 1000000 + f * 10 ^ (6 - fracPart.length))
      | _, _ => none
    else none
  | _ => none

/-- CctpBridge.approveUSDC: read the current allowance, short-circuit with
`already-approved` when `allowance > parseUnits(amount, 6)` holds strictly,
otherwise submit a fresh approval and return its hash.  The on-chain
allowance read and the submitted transaction's hash are oracle inputs;
`none` models parseUnits throwing on a malformed amount. -/
def approveUSDC (allowance : Nat) (amount : String) (newTxHash : String) :
    Option ApproveResult :=
  (parseUnits6 amount).map (fun units =>
    if units < allowance then ApproveResult.alreadyApproved
    else ApproveResult.success newTxHash)

/-- The spec's attestation-presence invariant over one record. -/
def AttInv (s : BridgeState) : Prop :=
  s.attestation.isSome = true ↔
    (s.step = BridgeStep.ATTESTED ∨ s.step = BridgeStep.COMPLETED)

instance (s : BridgeState) : Decidable (AttInv s) := by
  unfold AttInv
  infer_instance

/-- Orchestrator states reachable from a freshly created session by any
sequence of execute calls (arbitrary adapters, succeeding or failing) and
resumes of stored records — every orchestrator operation except cancel. -/
inductive ReachNC : OrchState → Prop where
  | created (mode : BridgeMode) (amount destinationAddress : String)
      (usePaymaster : Option Bool) (sessionId : String) (now : Nat) :
      ReachNC (createOrch mode amount destinationAddress usePaymaster sessionId now)
  | exec (ad : Adapter) (o : OrchState) :
      ReachNC o → ReachNC (execute ad o).1
  | resumed (o : OrchState) (sid : String) (s : BridgeState) :
      ReachNC o → storeLoad o.store sid = some s →
      ReachNC { state := resumedState s, store := o.store, clock := o.clock }

/-- Adapter whose operations are never reached. -/
def adStub : Adapter :=
  { approveUSDC := fun _ => Except.error "unused"
    burnUSDC := fun _ _ => Except.error "unused"
    retrieveAttestation := fun _ => Except.error "unused"
    mintUSDC := fun _ => Except.error "unused"
    approveAndBurnSA := fun _ _ _ => Except.error "unused"
    waitForUserOperation := fun _ _ => Except.error "unused"
    mintUSDCViaRelayer := fun _ => Except.error "unused" }

/-- Adapter whose approve call throws with message "boom". -/
def adFailApprove : Adapter :=
  { adStub with approveUSDC := fun _ => Except.error "boom" }

/-- Adapter driving a standard session up to ATTESTED and failing the mint. -/
def adToAttested : Adapter :=
  { approveUSDC := fun _ => Except.ok ApproveResult.alreadyApproved
    burnUSDC := fun _ _ => Except.ok "0xburn"
    retrieveAttestation := fun _ => Except.ok { message := "0xaa", attestation := "0xbb" }
    mintUSDC := fun _ => Except.error "mint down"
    approveAndBurnSA := fun _ _ _ => Except.error "unused"
    waitForUserOperation := fun _ _ => Except.error "unused"
    mintUSDCViaRelayer := fun _ => Except.error "unused" }

/-- Adapter for the smart-account path: submission and wait both succeed. -/
def adSmartOk : Adapter :=
  { adStub with
    approveAndBurnSA := fun _ _ _ => Except.ok "0xop-new"
    waitForUserOperation := fun _ _ => Except.ok "0xreceipt" }

/-- A fresh standard-mode session. -/
def oFresh : OrchState := createOrch BridgeMode.standard "10" "0xabc" none "s1" 0

/-- A session whose last attempt failed with a recorded error. -/
def stateWithError : BridgeState :=
  { (initialState BridgeMode.standard "10" "0xabc" none "s7" 0) with
    step := BridgeStep.APPROVED, error := some "previous failure" }

def oWithError : OrchState :=
  { state := stateWithError, store := storeSave [] "s7" stateWithError, clock := 1 }

/-- A session frozen mid-handler (isLoading = true). -/
def oLoading : OrchState :=
  { state := { (initialState BridgeMode.standard "10" "0xabc" none "s8" 0) with
      isLoading := true },
    store := [], clock := 1 }

/-- A session that reached COMPLETED and was cleaned up: the terminal record
is still held by the instance, the store no longer has it. -/
def completedState : BridgeState :=
  { (initialState BridgeMode.standard "10" "0xabc" none "s3" 0) with
    step := BridgeStep.COMPLETED, burnTxHash := some "0xburn",
    attestation := some { message := "0xaa", attestation := "0xbb" },
    mintTxHash := some "0xmint", updatedAt := 4 }

def oCompleted : OrchState := { state := completedState, store := [], clock := 9 }

/-- A smart-account session resumed from a record persisted between the
bundled submission and its confirmation: userOpHash set, step still IDLE. -/
def crashedSmartRecord : BridgeState :=
  { (initialState BridgeMode.smartAccount "5" "0xdef" (some true) "sa1" 0) with
    userOpHash := some "0xop-old", updatedAt := 2 }

def oResumedSmart : OrchState :=
  { state := resumedState crashedSmartRecord,
    store := storeSave [] "sa1" crashedSmartRecord, clock := 3 }

/-- A standard session driven to ATTESTED by a failing mint, then cancelled. -/
def oCancelledAfterAttested : OrchState :=
  (cancel (execute adToAttested (createOrch BridgeMode.standard "10" "0xabc" none "s5" 0)).1).1

/-- The reaction table of a notification round in which the first listener
synchronously unsubscribes itself. -/
def reactSelfUnsub : Nat → Option Nat := fun n => if n = 0 then some 0 else none

/-! ### Store lemmas -/

theorem find_nomatch (id : String) :
    ∀ l : SessionStore, l.any (fun p => p.1 = id) = false →
      l.find? (fun p => p.1 = id) = none := by
  intro l
  induction l with
  | nil => intro _; rfl
  | cons hd tl ih =>
    intro h
    simp only [List.any_cons, Bool.or_eq_false_iff] at h
    rw [List.find?_cons_of_neg _ (by simp [of_decide_eq_false h.1])]
    exact ih h.2

theorem find_map_set_self (id : String) (v : BridgeState) :
    ∀ l : SessionStore, l.any (fun p => p.1 = id) = true →
      (l.map (fun p => if p.1 = id then (id, v) else p)).find?
        (fun p => p.1 = id) = some (id, v) := by
  intro l
  induction l with
  | nil => intro h; simp at h
  | cons hd tl ih =>
    intro h
    by_cases hhd : hd.1 = id
    · simp [hhd]
    · simp only [List.map_cons, if_neg hhd]
      rw [List.find?_cons_of_neg _ (by simp [hhd])]
      refine ih ?_
      simp only [List.any_cons] at h
      rcases Bool.or_eq_true_iff.mp h with h1 | h2
      · exact absurd (of_decide_eq_true h1) hhd
      · exact h2

theorem find_map_set_other (id id2 : String) (v : BridgeState) (hne : id2 ≠ id) :
    ∀ l : SessionStore,
      (l.map (fun p => if p.1 = id then (id, v) else p)).find?
        (fun p => p.1 = id2) = l.find? (fun p => p.1 = id2) := by
  intro l
  induction l with
  | nil => rfl
  | cons hd tl ih =>
    by_cases hhd : hd.1 = id
    · have hno : ¬ (id = id2) := fun h => hne h.symm
      have hno2 : ¬ (hd.1 = id2) := fun h => hne (h.symm.trans hhd)
      simp only [List.map_cons, if_pos hhd]
      rw [List.find?_cons_of_neg _ (by simp [hno]),
          List.find?_cons_of_neg _ (by simp [hno2])]
      exact ih
    · simp only [List.map_cons, if_neg hhd]
      by_cases h2 : hd.1 = id2
      · rw [List.find?_cons_of_pos _ (by simp [h2]),
            List.find?_cons_of_pos _ (by simp [h2])]
      · rw [List.find?_cons_of_neg _ (by simp [h2]),
            List.find?_cons_of_neg _ (by simp [h2])]
        exact ih

/-- `load` after `save`: the saved record under its key, everything else
untouched. -/
theorem storeLoad_save (st : SessionStore) (id : String) (v : BridgeState)
    (id2 : String) :
    storeLoad (storeSave st id v) id2 =
      if id2 = id then some v else storeLoad st id2 := by
  unfold storeSave storeLoad
  by_cases hany : st.any (fun p => p.1 = id) = true
  · rw [if_pos hany]
    by_cases hid : id2 = id
    · rw [if_pos hid, hid, find_map_set_self id v st hany]
      rfl
    · rw [if_neg hid, find_map_set_other id id2 v hid st]
  · have hany' : st.any (fun p => p.1 = id) = false := by
      cases h : st.any (fun p => p.1 = id)
      · rfl
      · exact absurd h hany
    rw [if_neg hany, List.find?_append]
    by_cases hid : id2 = id
    · rw [if_pos hid, hid, find_nomatch id st hany']
      simp
    · rw [if_neg hid]
      cases hfind : st.find? (fun p => p.1 = id2) with
      | none =>
        have hid2 : ¬ (id = id2) := fun h => hid h.symm
        simp [hid2]
      | some w =>
        rfl

/-- `load` after `remove`: gone under its key, everything else untouched. -/
theorem storeLoad_remove (st : SessionStore) (id id2 : String) :
    storeLoad (storeRemove st id) id2 =
      if id2 = id then none else storeLoad st id2 := by
  unfold storeRemove storeLoad
  induction st with
  | nil => simp
  | cons hd tl ih =>
    by_cases hhd : hd.1 = id
    · rw [List.filter_cons_of_neg (by simp [hhd])]
      by_cases hid : id2 = id
      · rw [ih, if_pos hid, if_pos hid]
      · have hno2 : ¬ (hd.1 = id2) := fun h => hid (h.symm.trans hhd)
        rw [ih, if_neg hid, if_neg hid,
            List.find?_cons_of_neg _ (by simp [hno2])]
    · rw [List.filter_cons_of_pos (by simp [hhd])]
      by_cases h2 : hd.1 = id2
      · have hid : ¬ (id2 = id) := fun h => hhd (h2.trans h)
        rw [List.find?_cons_of_pos _ (by simp [h2]), if_neg hid,
            List.find?_cons_of_pos _ (by simp [h2])]
      · rw [List.find?_cons_of_neg _ (by simp [h2]), ih]
        by_cases hid : id2 = id
        · rw [if_pos hid, if_pos hid]
        · rw [if_neg hid, if_neg hid,
              List.find?_cons_of_neg _ (by simp [h2])]

/-! ### Attestation-presence invariant machinery -/

/-- Every record readable from the store satisfies the invariant. -/
def InvStore (st : SessionStore) : Prop :=
  ∀ id s, storeLoad st id = some s → AttInv s

/-- The invariant over a whole orchestrator instance. -/
def InvO (o : OrchState) : Prop :=
  AttInv o.state ∧ InvStore o.store

theorem invStore_save {st : SessionStore} {id : String} {v : BridgeState}
    (h : InvStore st) (hv : AttInv v) : InvStore (storeSave st id v) := by
  intro id2 s hs
  rw [storeLoad_save] at hs
  by_cases hid : id2 = id
  · rw [if_pos hid] at hs
    cases hs
    exact hv
  · rw [if_neg hid] at hs
    exact h id2 s hs

theorem invStore_remove {st : SessionStore} {id : String}
    (h : InvStore st) : InvStore (storeRemove st id) := by
  intro id2 s hs
  rw [storeLoad_remove] at hs
  by_cases hid : id2 = id
  · rw [if_pos hid] at hs
    cases hs
  · rw [if_neg hid] at hs
    exact h id2 s hs

theorem updateState_invO {o : OrchState} {p : StatePatch}
    (h : InvO o) (hp : AttInv (applyPatch o.state p o.clock)) :
    InvO (updateState p o).1 :=
  ⟨hp, invStore_save h.2 hp⟩

/-- A patch that mentions neither `step` nor `attestation` preserves the
attestation-presence invariant. -/
theorem attInv_keep {s : BridgeState} (p : StatePatch) (now : Nat)
    (h : AttInv s) (h1 : p.step = none) (h2 : p.attestation = none) :
    AttInv (applyPatch s p now) := by
  unfold AttInv at *
  unfold applyPatch
  simp only [h1, h2, Option.getD_none, Option.map_none]
  exact h

theorem setLoading_invO {o : OrchState} (b : Bool) (h : InvO o) :
    InvO (setLoading b o).1 :=
  updateState_invO h (attInv_keep _ _ h.1 rfl rfl)

theorem setError_invO {o : OrchState} (m : String) (h : InvO o) :
    InvO (setError m o).1 :=
  updateState_invO h (attInv_keep _ _ h.1 rfl rfl)

theorem attInv_none {s : BridgeState} (h : AttInv s)
    (h1 : s.step ≠ BridgeStep.ATTESTED) (h2 : s.step ≠ BridgeStep.COMPLETED) :
    s.attestation = none := by
  cases hA : s.attestation with
  | none => rfl
  | some a =>
    rcases h.mp (by simp [hA]) with h3 | h3
    · exact absurd h3 h1
    · exact absurd h3 h2

theorem stepApprove_invO (ad : Adapter) (o : OrchState)
    (h : InvO o) (hstep : o.state.step = BridgeStep.IDLE) :
    InvO (stepApprove ad o).2.1 := by
  have hatt : o.state.attestation = none :=
    attInv_none h.1 (by rw [hstep]; simp) (by rw [hstep]; simp)
  have hL := setLoading_invO true h
  unfold stepApprove
  cases hr : ad.approveUSDC (setLoading true o).1.state.amount with
  | error m => simpa [hr] using hL
  | ok res =>
    simp only [hr]
    exact updateState_invO hL (by simp [AttInv, applyPatch, setLoading, updateState, hatt])

theorem stepBurn_invO (ad : Adapter) (o : OrchState)
    (h : InvO o) (hstep : o.state.step = BridgeStep.APPROVED) :
    InvO (stepBurn ad o).2.1 := by
  have hatt : o.state.attestation = none :=
    attInv_none h.1 (by rw [hstep]; simp) (by rw [hstep]; simp)
  have hL := setLoading_invO true h
  unfold stepBurn
  cases hr : ad.burnUSDC (setLoading true o).1.state.amount
      (setLoading true o).1.state.destinationAddress with
  | error m => simpa [hr] using hL
  | ok hsh =>
    simp only [hr]
    exact updateState_invO hL (by simp [AttInv, applyPatch, setLoading, updateState, hatt])

theorem stepAttest_invO (ad : Adapter) (o : OrchState) (h : InvO o) :
    InvO (stepAttest ad o).2.1 := by
  have hL := setLoading_invO true h
  unfold stepAttest
  cases htx : (if (setLoading true o).1.state.mode = BridgeMode.smartAccount then
      (setLoading true o).1.state.userOpReceiptTxHash
    else (setLoading true o).1.state.burnTxHash) with
  | none => simpa [htx] using hL
  | some tx =>
    simp only [htx]
    cases hr : ad.retrieveAttestation tx with
    | error m => simpa [hr] using hL
    | ok a =>
      simp only [hr]
      exact updateState_invO hL (by simp [AttInv, applyPatch])

theorem stepMint_invO (ad : Adapter) (o : OrchState) (h : InvO o) :
    InvO (stepMint ad o).2.1 := by
  unfold stepMint
  cases hA : o.state.attestation with
  | none => simpa [hA] using h
  | some a =>
    simp only [hA]
    have hL := setLoading_invO true h
    cases hr : ad.mintUSDC a with
    | error m => simpa [hr] using hL
    | ok hsh =>
      simp only [hr]
      exact updateState_invO hL
        (by simp [AttInv, applyPatch, setLoading, updateState, hA])

theorem stepApproveAndBurn_invO (ad : Adapter) (o : OrchState)
    (h : InvO o) (hstep : o.state.step = BridgeStep.IDLE) :
    InvO (stepApproveAndBurn ad o).2.1 := by
  have hatt : o.state.attestation = none :=
    attInv_none h.1 (by rw [hstep]; simp) (by rw [hstep]; simp)
  have hL := setLoading_invO true h
  unfold stepApproveAndBurn
  cases hr : ad.approveAndBurnSA (setLoading true o).1.state.amount
      (setLoading true o).1.state.destinationAddress
      ((setLoading true o).1.state.usePaymaster.getD true) with
  | error m => simpa [hr] using hL
  | ok opHash =>
    simp only [hr]
    have hU : InvO (updateState { userOpHash := some opHash } (setLoading true o).1).1 :=
      updateState_invO hL (attInv_keep _ _ hL.1 rfl rfl)
    cases hw : ad.waitForUserOperation opHash
        ((setLoading true o).1.state.usePaymaster.getD true) with
    | error m => simpa [hw] using hU
    | ok receiptTx =>
      simp only [hw]
      exact updateState_invO hU
        (by simp [AttInv, applyPatch, setLoading, updateState, hatt])

theorem stepMintViaRelayer_invO (ad : Adapter) (o : OrchState) (h : InvO o) :
    InvO (stepMintViaRelayer ad o).2.1 := by
  unfold stepMintViaRelayer
  cases hA : o.state.attestation with
  | none => simpa [hA] using h
  | some a =>
    simp only [hA]
    have hL := setLoading_invO true h
    cases hr : ad.mintUSDCViaRelayer a with
    | error m => simpa [hr] using hL
    | ok res =>
      cases res with
      | fail e c => simpa [hr] using hL
      | ok hsh =>
        simp only [hr]
        exact updateState_invO hL
          (by simp [AttInv, applyPatch, setLoading, updateState, hA])

theorem runHandler_invO (tag : HandlerTag) (ad : Adapter) (mode : BridgeMode)
    (o : OrchState) (hmap : flowMap mode o.state.step = some tag) (h : InvO o) :
    InvO (runHandler tag ad o).2.1 := by
  cases mode <;> cases hstep : o.state.step <;>
    rw [hstep] at hmap <;> simp only [flowMap] at hmap <;>
    cases hmap <;>
    first
    | exact stepApprove_invO ad o h hstep
    | exact stepBurn_invO ad o h hstep
    | exact stepAttest_invO ad o h
    | exact stepMint_invO ad o h
    | exact stepApproveAndBurn_invO ad o h hstep
    | exact stepMintViaRelayer_invO ad o h

theorem flowLoop_invO (ad : Adapter) (mode : BridgeMode) :
    ∀ fuel (o : OrchState), InvO o → InvO (flowLoop ad mode fuel o).2.1 := by
  intro fuel
  induction fuel with
  | zero => intro o h; exact h
  | succ n ih =>
    intro o h
    rw [flowLoop]
    cases hmap : flowMap mode o.state.step with
    | none => exact h
    | some tag =>
      simp only []
      have hrun := runHandler_invO tag ad mode o hmap h
      cases hres : (runHandler tag ad o).1 with
      | error m => simpa [hres] using hrun
      | ok u =>
        simp only [hres]
        by_cases hstep : (runHandler tag ad o).2.1.state.step = o.state.step
        · simpa [hstep] using hrun
        · simpa [hstep] using ih _ hrun

theorem executeFlow_invO (ad : Adapter) (o : OrchState) (h : InvO o) :
    InvO (executeFlow ad o).2.1 := by
  unfold executeFlow
  have hfl := flowLoop_invO ad o.state.mode (flowSize o.state.mode + 1) o h
  cases hres : (flowLoop ad o.state.mode (flowSize o.state.mode + 1) o).1 with
  | error e => simpa [hres] using hfl
  | ok u =>
    simp only [hres]
    by_cases hc : (flowLoop ad o.state.mode (flowSize o.state.mode + 1) o).2.1.state.step
        = BridgeStep.COMPLETED
    · simp only [if_pos hc, cleanup]
      exact ⟨hfl.1, invStore_remove hfl.2⟩
    · simpa [hc] using hfl

theorem execute_invO (ad : Adapter) (o : OrchState) (h : InvO o) :
    InvO (execute ad o).1 := by
  unfold execute
  by_cases hl : o.state.isLoading = true
  · simpa [hl] using h
  · simp only [hl, if_false, Bool.false_eq_true]
    have h1 : InvO (updateState { error := some none } o).1 :=
      updateState_invO h (attInv_keep _ _ h.1 rfl rfl)
    have h2 := executeFlow_invO ad (updateState { error := some none } o).1 h1
    cases hres : (executeFlow ad (updateState { error := some none } o).1).1 with
    | ok u => simpa [hres] using h2
    | error e => simpa [hres] using setError_invO e.2.2 h2

theorem createOrch_invO (mode : BridgeMode) (amount destinationAddress : String)
    (usePaymaster : Option Bool) (sessionId : String) (now : Nat) :
    InvO (createOrch mode amount destinationAddress usePaymaster sessionId now) := by
  constructor
  · simp [createOrch, initialState, AttInv]
  · intro id s hs
    simp only [createOrch] at hs
    rw [storeLoad_save] at hs
    by_cases hid : id = sessionId
    · rw [if_pos hid] at hs
      cases hs
      simp [initialState, AttInv]
    · rw [if_neg hid] at hs
      exact absurd hs (by simp [storeLoad])

theorem resumedState_attInv {s : BridgeState} (h : AttInv s) :
    AttInv (resumedState s) := by
  unfold AttInv resumedState at *
  simpa using h

theorem reachNC_invO (o : OrchState) (h : ReachNC o) : InvO o := by
  induction h with
  | created mode amount destinationAddress usePaymaster sessionId now =>
    exact createOrch_invO mode amount destinationAddress usePaymaster sessionId now
  | exec ad o1 hR ih => exact execute_invO ad o1 ih
  | resumed o1 sid s hR hload ih =>
    exact ⟨resumedState_attInv (ih.2 sid s hload), ih.2⟩

/-! ### Error-path frame lemmas -/

/-- No handler ever patches `mode`. -/
theorem runHandler_mode (tag : HandlerTag) (ad : Adapter) (o : OrchState) :
    (runHandler tag ad o).2.1.state.mode = o.state.mode := by
  cases tag with
  | approve =>
    unfold runHandler stepApprove
    cases hr : ad.approveUSDC (setLoading true o).1.state.amount <;>
      simp only [hr] <;> try rfl
  | burn =>
    unfold runHandler stepBurn
    cases hr : ad.burnUSDC (setLoading true o).1.state.amount
        (setLoading true o).1.state.destinationAddress <;>
      simp only [hr] <;> try rfl
  | attest =>
    unfold runHandler stepAttest
    cases htx : (if (setLoading true o).1.state.mode = BridgeMode.smartAccount then
        (setLoading true o).1.state.userOpReceiptTxHash
      else (setLoading true o).1.state.burnTxHash) with
    | none => simp only [htx]; try rfl
    | some tx =>
      cases hr : ad.retrieveAttestation tx <;> simp only [htx, hr] <;> try rfl
  | mint =>
    unfold runHandler stepMint
    cases hA : o.state.attestation with
    | none => simp only [hA]; try rfl
    | some a =>
      cases hr : ad.mintUSDC a <;> simp only [hA, hr] <;> try rfl
  | approveAndBurn =>
    unfold runHandler stepApproveAndBurn
    cases hr : ad.approveAndBurnSA (setLoading true o).1.state.amount
        (setLoading true o).1.state.destinationAddress
        ((setLoading true o).1.state.usePaymaster.getD true) with
    | error m => simp only [hr]; try rfl
    | ok opHash =>
      cases hw : ad.waitForUserOperation opHash
          ((setLoading true o).1.state.usePaymaster.getD true) <;>
        simp only [hr, hw] <;> try rfl
  | mintViaRelayer =>
    unfold runHandler stepMintViaRelayer
    cases hA : o.state.attestation with
    | none => simp only [hA]; try rfl
    | some a =>
      cases hr : ad.mintUSDCViaRelayer a with
      | error m => simp only [hA, hr]; try rfl
      | ok res => cases res <;> simp only [hA, hr] <;> try rfl

/-- A handler that throws leaves `step` exactly where it was: every handler
advances `step` only in its final, post-success updateState. -/
theorem runHandler_error_step (tag : HandlerTag) (ad : Adapter) (o : OrchState)
    (m : String) (h : (runHandler tag ad o).1 = Except.error m) :
    (runHandler tag ad o).2.1.state.step = o.state.step := by
  cases tag with
  | approve =>
    unfold runHandler stepApprove at h ⊢
    cases hr : ad.approveUSDC (setLoading true o).1.state.amount
    · simp only [hr]; try rfl
    · simp only [hr] at h; cases h
  | burn =>
    unfold runHandler stepBurn at h ⊢
    cases hr : ad.burnUSDC (setLoading true o).1.state.amount
        (setLoading true o).1.state.destinationAddress
    · simp only [hr]; try rfl
    · simp only [hr] at h; cases h
  | attest =>
    unfold runHandler stepAttest at h ⊢
    cases htx : (if (setLoading true o).1.state.mode = BridgeMode.smartAccount then
        (setLoading true o).1.state.userOpReceiptTxHash
      else (setLoading true o).1.state.burnTxHash) with
    | none => simp only [htx]; try rfl
    | some tx =>
      cases hr : ad.retrieveAttestation tx
      · simp only [htx, hr]; try rfl
      · simp only [htx, hr] at h; cases h
  | mint =>
    unfold runHandler stepMint at h ⊢
    cases hA : o.state.attestation with
    | none => simp only [hA]; try rfl
    | some a =>
      cases hr : ad.mintUSDC a
      · simp only [hA, hr]; try rfl
      · simp only [hA, hr] at h; cases h
  | approveAndBurn =>
    unfold runHandler stepApproveAndBurn at h ⊢
    cases hr : ad.approveAndBurnSA (setLoading true o).1.state.amount
        (setLoading true o).1.state.destinationAddress
        ((setLoading true o).1.state.usePaymaster.getD true) with
    | error m2 => simp only [hr]; try rfl
    | ok opHash =>
      cases hw : ad.waitForUserOperation opHash
          ((setLoading true o).1.state.usePaymaster.getD true)
      · simp only [hr, hw]; try rfl
      · simp only [hr, hw] at h; cases h
  | mintViaRelayer =>
    unfold runHandler stepMintViaRelayer at h ⊢
    cases hA : o.state.attestation with
    | none => simp only [hA]; try rfl
    | some a =>
      cases hr : ad.mintUSDCViaRelayer a with
      | error m2 => simp only [hA, hr]; try rfl
      | ok res =>
        cases res with
        | ok hsh => simp only [hA, hr] at h; cases h
        | fail e c => simp only [hA, hr]; try rfl

theorem flowLoop_error_frame (ad : Adapter) (mode : BridgeMode) :
    ∀ fuel (o : OrchState) (tag : HandlerTag) (st : BridgeStep) (m : String),
      (flowLoop ad mode fuel o).1 = Except.error (tag, st, m) →
      (flowLoop ad mode fuel o).2.1.state.step = st ∧
      (flowLoop ad mode fuel o).2.1.state.mode = o.state.mode ∧
      flowMap mode st = some tag := by
  intro fuel
  induction fuel with
  | zero => intro o tag st m h; cases h
  | succ n ih =>
    intro o tag st m h
    rw [flowLoop] at h ⊢
    cases hmap : flowMap mode o.state.step with
    | none =>
      rw [hmap] at h
      simp at h
    | some tag2 =>
      rw [hmap] at h
      cases hres : (runHandler tag2 ad o).1 with
      | error m2 =>
        simp only [hres] at h ⊢
        injection h with h0
        rw [Prod.mk.injEq, Prod.mk.injEq] at h0
        obtain ⟨h1, h2, h3⟩ := h0
        subst h1
        subst h2
        exact ⟨runHandler_error_step tag2 ad o m2 hres, runHandler_mode tag2 ad o, hmap⟩
      | ok u =>
        simp only [hres] at h ⊢
        by_cases hstep : (runHandler tag2 ad o).2.1.state.step = o.state.step
        · rw [if_pos hstep] at h
          cases h
        · rw [if_neg hstep] at h ⊢
          simp only [] at h ⊢
          have hrec := ih (runHandler tag2 ad o).2.1 tag st m h
          exact ⟨hrec.1, hrec.2.1.trans (runHandler_mode tag2 ad o), hrec.2.2⟩

/-- Error frame lifted through executeFlow (a thrown handler skips cleanup). -/
theorem executeFlow_error_frame (ad : Adapter) (o : OrchState)
    (tag : HandlerTag) (st : BridgeStep) (m : String)
    (h : (executeFlow ad o).1 = Except.error (tag, st, m)) :
    (executeFlow ad o).2.1.state.step = st ∧
    (executeFlow ad o).2.1.state.mode = o.state.mode ∧
    flowMap o.state.mode st = some tag := by
  unfold executeFlow at h ⊢
  cases hres : (flowLoop ad o.state.mode (flowSize o.state.mode + 1) o).1 with
  | error e =>
    simp only [hres] at h ⊢
    injection h with h0
    subst h0
    exact flowLoop_error_frame ad o.state.mode (flowSize o.state.mode + 1)
      o tag st m hres
  | ok u =>
    simp only [hres] at h
    by_cases hc : (flowLoop ad o.state.mode (flowSize o.state.mode + 1) o).2.1.state.step
        = BridgeStep.COMPLETED
    · rw [if_pos hc] at h
      cases h
    · rw [if_neg hc] at h
      cases h

/-- Terminal steps have no flow-map entry in either mode. -/
theorem flowMap_completed (mode : BridgeMode) :
    flowMap mode BridgeStep.COMPLETED = none := by
  cases mode <;> rfl

/-! ### Notification-round lemmas -/

theorem notifyFrom_stable (react : Nat → Option Nat) :
    ∀ fuel (ls : List Nat) (i : Nat), (∀ x ∈ ls, react x = none) →
      ls.length ≤ fuel + i →
      notifyFrom react fuel ls i = (ls.drop i, ls) := by
  intro fuel
  induction fuel with
  | zero =>
    intro ls i hreact hlen
    rw [notifyFrom, List.drop_eq_nil_of_le (by omega)]
  | succ n ih =>
    intro ls i hreact hlen
    rw [notifyFrom]
    by_cases h : i < ls.length
    · rw [dif_pos h]
      have hx : react (ls.get ⟨i, h⟩) = none := hreact _ (ls.get_mem _ _)
      simp only [hx]
      rw [ih ls (i + 1) hreact (by omega), List.drop_eq_getElem_cons h]
      rfl
    · rw [dif_neg h, List.drop_eq_nil_of_le (by omega)]

/-! ### Claim theorems -/

/-- C1: from a non-loading state, when the step handler invoked by execute()
throws (the reported failure is `some (tag, st, m)`), execute() returns
normally with the failure recorded: the thrown message is in `error`,
`isLoading` is cleared, `step` still holds the step the failing handler ran
at, the mode is untouched, and the flow map sends the resulting step to that
same handler — so the next execute() call retries it. -/
theorem claim_C1_execute_catches_failure (ad : Adapter) (o : OrchState)
    (tag : HandlerTag) (st : BridgeStep) (m : String)
    (h0 : o.state.isLoading = false)
    (h : (execute ad o).2.2 = some (tag, st, m)) :
    (execute ad o).1.state.error = some m ∧
    (execute ad o).1.state.isLoading = false ∧
    (execute ad o).1.state.step = st ∧
    (execute ad o).1.state.mode = o.state.mode ∧
    flowMap (execute ad o).1.state.mode (execute ad o).1.state.step
      = some tag := by
  unfold execute at h ⊢
  rw [if_neg (by simp [h0])] at h ⊢
  cases hres : (executeFlow ad (updateState { error := some none } o).1).1 with
  | ok u =>
    simp only [hres] at h
    cases h
  | error e =>
    simp only [hres] at h ⊢
    injection h with h1
    subst h1
    have hf := executeFlow_error_frame ad
      (updateState { error := some none } o).1 tag st m hres
    refine ⟨rfl, rfl, hf.1, hf.2.1, ?_⟩
    have hmode : (setError (tag, st, m).2.2
        (executeFlow ad (updateState { error := some none } o).1).2.1).1.state.mode
        = (executeFlow ad (updateState { error := some none } o).1).2.1.state.mode := rfl
    have hstep : (setError (tag, st, m).2.2
        (executeFlow ad (updateState { error := some none } o).1).2.1).1.state.step
        = (executeFlow ad (updateState { error := some none } o).1).2.1.state.step := rfl
    rw [hmode, hstep, hf.1, hf.2.1]
    exact hf.2.2

/-- C1 witness: a fresh standard session whose approve call throws "boom". -/
theorem claim_C1_witness :
    (execute adFailApprove oFresh).1.state.error = some "boom" ∧
    (execute adFailApprove oFresh).1.state.isLoading = false ∧
    (execute adFailApprove oFresh).1.state.step = BridgeStep.IDLE ∧
    (execute adFailApprove oFresh).1.state.mode = oFresh.state.mode ∧
    flowMap (execute adFailApprove oFresh).1.state.mode
      (execute adFailApprove oFresh).1.state.step = some HandlerTag.approve :=
  claim_C1_execute_catches_failure adFailApprove oFresh HandlerTag.approve
    BridgeStep.IDLE "boom" (by decide) (by decide)

/-- C2: the code re-submits the bundled approve+burn on resume.  A
smart-account session resumed from a record persisted between submission and
confirmation (step = IDLE, userOpHash set) drives execute() straight into
stepApproveAndBurn, which unconditionally calls the bundled-submission
adapter operation again and overwrites the persisted submission id. -/
theorem claim_C2_resubmission_on_resume :
    oResumedSmart.state.step = BridgeStep.IDLE ∧
    oResumedSmart.state.userOpHash = some "0xop-old" ∧
    Event.call AdapterOp.approveAndBurnSA ∈ (execute adSmartOk oResumedSmart).2.1 ∧
    (execute adSmartOk oResumedSmart).1.state.userOpHash = some "0xop-new" := by
  decide

/-- C3 counterexample: execute() on a completed, cleaned-up session is not
silent — it performs a notification round and storage writes, and refreshes
updatedAt. -/
theorem claim_C3_counterexample :
    (execute adStub oCompleted).2.1 ≠ ([] : Trace) ∧
    (execute adStub oCompleted).1.state ≠ oCompleted.state := by
  decide

/-- C3 amended: execute() after COMPLETED-plus-cleanup invokes no handler and
leaves every meaningful field unchanged (only updatedAt is refreshed by the
initial error-clearing update), but it does emit one notification and one
save before cleanup runs remove again; the store still ends with no record
for the session. -/
theorem claim_C3_execute_after_completion (ad : Adapter) (o : OrchState)
    (hstep : o.state.step = BridgeStep.COMPLETED)
    (hload : o.state.isLoading = false)
    (hgone : storeLoad o.store o.state.sessionId = none) :

    (execute ad o).1.state = { o.state with error := none, updatedAt := o.clock } ∧
    (execute ad o).2.1 =
      [Event.notified { o.state with error := none, updatedAt := o.clock },
       Event.saved o.state.sessionId
         { o.state with error := none, updatedAt := o.clock },
       Event.removed o.state.sessionId] ∧
    (execute ad o).2.2 = none ∧
    storeLoad (execute ad o).1.store o.state.sessionId = none := by
  have hu : (updateState { error := some none } o).1.state.step
      = BridgeStep.COMPLETED := hstep
  have hflow : flowLoop ad (updateState { error := some none } o).1.state.mode
      (flowSize (updateState { error := some none } o).1.state.mode + 1)
      (updateState { error := some none } o).1
      = (Except.ok (), (updateState { error := some none } o).1, ([] : Trace)) := by
    rw [flowLoop, hu, flowMap_completed]
  unfold execute executeFlow
  rw [if_neg (by simp [hload])]
  simp only [hflow, hu, eq_self_iff_true, if_true, cleanup]
  refine ⟨rfl, rfl, by trivial, ?_⟩
  rw [storeLoad_remove]
  simp [updateState, applyPatch]

/-- C3 witness for the amended statement: the concrete completed session. -/
theorem claim_C3_witness :
    (execute adStub oCompleted).1.state
      = { oCompleted.state with error := none, updatedAt := oCompleted.clock } ∧
    (execute adStub oCompleted).2.1 =
      [Event.notified { oCompleted.state with error := none, updatedAt := oCompleted.clock },
       Event.saved oCompleted.state.sessionId
         { oCompleted.state with error := none, updatedAt := oCompleted.clock },
       Event.removed oCompleted.state.sessionId] ∧
    (execute adStub oCompleted).2.2 = none ∧
    storeLoad (execute adStub oCompleted).1.store oCompleted.state.sessionId = none :=
  claim_C3_execute_after_completion adStub oCompleted (by decide) (by decide) (by decide)

/-- C4: cancel() does reset the local state (step = IDLE with the
cancellation marker), but the store does not end empty: the updateState that
records the reset re-saves the cancelled record right after remove, so the
session is present in storage again when cancel() returns. -/
theorem claim_C4_cancel_leaves_record (o : OrchState) :
    (cancel o).1.state.step = BridgeStep.IDLE ∧
    (cancel o).1.state.error = some "Session cancelled" ∧
    (cancel o).1.state.isLoading = false ∧
    storeLoad (cancel o).1.store o.state.sessionId = some (cancel o).1.state := by
  refine ⟨rfl, rfl, rfl, ?_⟩
  unfold cancel updateState
  rw [storeLoad_save]
  simp [applyPatch]

/-- C5 counterexample: drive a standard session to ATTESTED (mint fails),
then cancel: the resulting reachable state has step = IDLE while the
attestation is still present, refuting the biconditional as soon as cancel
is among the allowed operations. -/
theorem claim_C5_counterexample :
    ¬ (oCancelledAfterAttested.state.attestation.isSome = true ↔
        (oCancelledAfterAttested.state.step = BridgeStep.ATTESTED ∨
         oCancelledAfterAttested.state.step = BridgeStep.COMPLETED)) := by
  decide

/-- C5 amended: over every state reachable from a freshly created session by
execute (arbitrary adapters, succeeding or failing handlers) and resume —
i.e. every orchestrator operation except cancel — the attestation is present
exactly when the step is ATTESTED or COMPLETED. -/
theorem claim_C5_attestation_iff_step (o : OrchState) (h : ReachNC o) :
    o.state.attestation.isSome = true ↔
      (o.state.step = BridgeStep.ATTESTED ∨
       o.state.step = BridgeStep.COMPLETED) :=
  (reachNC_invO o h).1

/-- C5 witness: the invariant at a freshly created session. -/
theorem claim_C5_witness :
    (createOrch BridgeMode.standard "10" "0xabc" none "w5" 0).state.attestation.isSome = true ↔
      ((createOrch BridgeMode.standard "10" "0xabc" none "w5" 0).state.step = BridgeStep.ATTESTED ∨
       (createOrch BridgeMode.standard "10" "0xabc" none "w5" 0).state.step = BridgeStep.COMPLETED) :=
  claim_C5_attestation_iff_step _
    (ReachNC.created BridgeMode.standard "10" "0xabc" none "w5" 0)

/-- C6 counterexample: notify() iterates the live listener array.  With
listeners [0, 1], listener 0 unsubscribing itself mid-round shifts listener 1
onto the consumed index, so listener 1 — subscribed when the round began —
is never invoked. -/
theorem claim_C6_counterexample :
    1 ∈ ([0, 1] : List Nat) ∧ 1 ∉ (notifyLive reactSelfUnsub [0, 1]).1 := by
  decide

/-- C6 amended: when no invoked listener mutates the subscription list during
the round, every listener subscribed at round start is invoked exactly once,
in order, and the list is unchanged; the snapshot guarantee does not hold
under mid-round unsubscription because iteration is over the live list. -/
theorem claim_C6_notify_stable (react : Nat → Option Nat) (ls : List Nat)
    (h : ∀ x ∈ ls, react x = none) :
    notifyLive react ls = (ls, ls) := by
  unfold notifyLive
  rw [notifyFrom_stable react ls.length ls 0 h (by omega)]
  simp

/-- C6 witness: a three-listener round with no mid-round unsubscription. -/
theorem claim_C6_witness :
    notifyLive (fun _ => none) [5, 7, 9] = ([5, 7, 9], [5, 7, 9]) :=
  claim_C6_notify_stable (fun _ => none) [5, 7, 9] (fun _ _ => rfl)

/-- C7 counterexample: setLoading(true) does not preserve the previous error
— the orchestrator's setLoading sets `error: isLoading ? null : ...`, wiping
the recorded failure the moment a new attempt starts. -/
theorem claim_C7_counterexample :
    ¬ ((setLoading true oWithError).1.state.error = oWithError.state.error) := by
  decide

/-- C7 amended: starting an attempt via setLoading(true) clears the error
field (sets it to null) and sets isLoading; every other field except
updatedAt is unchanged. -/
theorem claim_C7_setLoading_frame (o : OrchState) :
    (setLoading true o).1.state.error = none ∧
    (setLoading true o).1.state.isLoading = true ∧
    (setLoading true o).1.state.step = o.state.step ∧
    (setLoading true o).1.state.mode = o.state.mode ∧
    (setLoading true o).1.state.sessionId = o.state.sessionId ∧
    (setLoading true o).1.state.amount = o.state.amount ∧
    (setLoading true o).1.state.destinationAddress = o.state.destinationAddress ∧
    (setLoading true o).1.state.approvalTxHash = o.state.approvalTxHash ∧
    (setLoading true o).1.state.burnTxHash = o.state.burnTxHash ∧
    (setLoading true o).1.state.userOpHash = o.state.userOpHash ∧
    (setLoading true o).1.state.userOpReceiptTxHash = o.state.userOpReceiptTxHash ∧
    (setLoading true o).1.state.usePaymaster = o.state.usePaymaster ∧
    (setLoading true o).1.state.attestation = o.state.attestation ∧
    (setLoading true o).1.state.mintTxHash = o.state.mintTxHash ∧
    (setLoading true o).1.state.createdAt = o.state.createdAt ∧
    (setLoading true o).1.state.updatedAt = o.clock :=
  ⟨rfl, rfl, rfl, rfl, rfl, rfl, rfl, rfl, rfl, rfl, rfl, rfl, rfl, rfl, rfl, rfl⟩

/-- C8: execute() while isLoading is true is a strict no-op — the very same
orchestrator state, an empty event trace (no notification, no storage
operation, no adapter call), and no failure. -/
theorem claim_C8_reentrancy_guard (ad : Adapter) (o : OrchState)
    (h : o.state.isLoading = true) :
    execute ad o = (o, ([] : Trace), none) := by
  unfold execute
  rw [if_pos h]

/-- C8 witness: the concrete mid-handler session. -/
theorem claim_C8_witness :
    execute adStub oLoading = (oLoading, ([] : Trace), none) :=
  claim_C8_reentrancy_guard adStub oLoading (by decide)

/-- C9: MemoryStorageRepository round-trip — save-then-load returns the very
record saved, remove-then-load returns absent, for any prior contents. -/
theorem claim_C9_store_roundtrip (st : SessionStore) (id : String)
    (s : BridgeState) :
    storeLoad (storeSave st id s) id = some s ∧
    storeLoad (storeRemove st id) id = none := by
  constructor
  · rw [storeLoad_save, if_pos rfl]
  · rw [storeLoad_remove, if_pos rfl]

/-- C10: approveUSDC short-circuits with the hash-less already-approved
result exactly when the on-chain allowance strictly exceeds the amount parsed
at 6 decimals; at exact equality it submits a fresh approval and returns its
hash. -/
theorem claim_C10_approve_boundary (allowance : Nat) (amount : String)
    (units : Nat) (newTxHash : String) (h : parseUnits6 amount = some units) :
    (approveUSDC allowance amount newTxHash = some ApproveResult.alreadyApproved
      ↔ units < allowance) ∧
    (units = allowance →
      approveUSDC allowance amount newTxHash
        = some (ApproveResult.success newTxHash)) := by
  unfold approveUSDC
  rw [h]
  constructor
  · by_cases hlt : units < allowance
    · simp [hlt]
    · simp [hlt]
  · intro he
    subst he
    simp [Nat.lt_irrefl]

/-- C10 witness: amount "10" parses to 10000000 units; an allowance equal to
it still submits a fresh approval. -/
theorem claim_C10_witness :
    (approveUSDC 10000000 "10" "0xh" = some ApproveResult.alreadyApproved
      ↔ 10000000 < 10000000) ∧
    (10000000 = 10000000 →
      approveUSDC 10000000 "10" "0xh"
        = some (ApproveResult.success "0xh")) :=
  claim_C10_approve_boundary 10000000 "10" 10000000 "0xh" (by decide)

end CctpBridge
